import Mathlib

/-!
Shallow embedding of the two-stage agent workflow of `effect-lab`
(`src/agents/index.ts`, the plain variant, and `src/agents/.tmp/gemini.ts`,
the Effect variant): a CodeGenerator stage that asks a language model for a
fenced TypeScript block and a SandboxedEvaluator stage that runs the
extracted code in a vm2 sandbox.

Modelling conventions:
- Messages are role-tagged strings (`HumanMessage` / `AIMessage`).
- The language model and the vm2 sandbox are external collaborators; they are
  passed in as oracle functions (`LlmOracle`, `SandboxOracle`).  An oracle
  result `Except.ok v` carries the reply text (for the model) or the
  JSON-serialized result value (for the sandbox); `Except.error m` carries the
  rejection text / thrown error message.
- A node returns a partial state update (`NodeUpdate`); the graph merges an
  update into the state through the declared channel reducers: `(x, y) =>
  y ?? x` for the two option-valued channels (`mergeChannel`) and `(x, y) =>
  x.concat(y)` for the transcript (`mergeMessages`).  Since each node returns
  the complete concatenated array (`state.messages.concat(...)`), a real
  stage transition yields `old ++ (old ++ [new])`: the prior transcript is
  duplicated at every stage, and only the single trailing entry of an update
  is new text.
- Uncaught JavaScript exceptions of the plain variant (reading `.content` of
  `undefined`, an unhandled model-call rejection) are modelled with
  `Except JsError`.
-/

namespace EffectLab

/-- A chat message: `HumanMessage` or `AIMessage` from `@langchain/core`. -/
inductive Message where
  | human (content : String)
  | ai (content : String)
deriving DecidableEq

/-- The `.content` field, present on both message classes. -/
def Message.content : Message → String
  | .human c => c
  | .ai c => c

/-- The `AgentState` record shared by both variants. -/
structure AgentState where
  messages : List Message
  generatedCode : Option String
  evaluationResult : Option String
deriving DecidableEq

/-- A `Partial<AgentState>` returned by a node; absent fields are `none`
(a node always returns a `messages` array in this program). -/
structure NodeUpdate where
  messages : List Message
  generatedCode : Option String := none
  evaluationResult : Option String := none
deriving DecidableEq

/-- The channel reducer `(x, y) => y ?? x` used for `generatedCode` and
`evaluationResult` in both variants. -/
def mergeChannel (x y : Option String) : Option String :=
  match y with
  | some v => some v
  | none => x

/-- The transcript channel reducer `(x, y) => x.concat(y)`. -/
def mergeMessages (x y : List Message) : List Message := x ++ y

/-- Merge an update of a node into the state through the declared channel
reducers: the transcript channel concatenates the current transcript with the
returned array (`(x, y) => x.concat(y)`), and the two optional channels are
merged with `y ?? x`.  Because a node returns the complete appended array,
this duplicates the prior transcript on every stage transition. -/
def applyUpdate (s : AgentState) (u : NodeUpdate) : AgentState :=
  { messages := mergeMessages s.messages u.messages,
    generatedCode := mergeChannel s.generatedCode u.generatedCode,
    evaluationResult := mergeChannel s.evaluationResult u.evaluationResult }

/-! ## Code extraction

`response.content.toString().match(/```typescript\n([\s\S]*?)```/)?.[1]?.trim()`

The regex finds the leftmost occurrence of the opening fence
"```typescript\n" that is followed by a closing "```", captures lazily (up to
the first following "```"), and the capture is trimmed.  Note that if the
first opening fence has no following "```" then no later opening fence exists
either (a later opening fence starts with "```"), so scanning from the first
opening fence only is exactly the leftmost-match semantics of the regex. -/

/-- `listPre a b` : `a` is a prefix of `b` (Boolean). -/
def listPre : List Char → List Char → Bool
  | [], _ => true
  | _ :: _, [] => false
  | a :: as, b :: bs => a == b && listPre as bs

/-- `hasSub needle l` : `needle` occurs as a contiguous sublist of `l`
(`needle` is assumed nonempty where this is used). -/
def hasSub (needle : List Char) : List Char → Bool
  | [] => false
  | c :: rest => listPre needle (c :: rest) || hasSub needle rest

/-- Drop everything up to and including the first occurrence of `needle`;
`none` when `needle` does not occur. -/
def findAfter (needle : List Char) : List Char → Option (List Char)
  | [] => none
  | c :: rest =>
    if listPre needle (c :: rest) then some ((c :: rest).drop needle.length)
    else findAfter needle rest

/-- The segment strictly before the first occurrence of `needle`; `none` when
`needle` does not occur (lazy capture up to the first closing fence). -/
def takeUntil (needle : List Char) : List Char → Option (List Char)
  | [] => none
  | c :: rest =>
    if listPre needle (c :: rest) then some []
    else (takeUntil needle rest).map (fun t => c :: t)

/-- `String.prototype.trim()` on the captured block (ASCII whitespace). -/
def trimChars (cs : List Char) : List Char :=
  ((cs.dropWhile Char.isWhitespace).reverse.dropWhile Char.isWhitespace).reverse

/-- The opening fence `"```typescript\n"` of the extraction regex. -/
def openFence : List Char := "```typescript\n".toList

/-- The closing fence `"```"` of the extraction regex. -/
def closeFence : List Char := "```".toList

/-- The extraction `text → optional code`: first fenced `typescript` block,
trimmed.  Shared verbatim by both variants. -/
def extractTypescript (s : String) : Option String :=
  match findAfter openFence s.toList with
  | none => none
  | some rest =>
    match takeUntil closeFence rest with
    | none => none
    | some captured => some (String.mk (trimChars captured))

/-! ## Literal strings of the two stages -/

/-- Assistant text appended when extraction fails. -/
def genFailText : String :=
  "I couldn\x27t generate valid TypeScript code from your request."

/-- Assistant text appended when generation succeeds. -/
def genSuccessText (code : String) : String :=
  "I\x27ve generated the following TypeScript code:\n```typescript\n" ++ code ++ "\n```"

/-- Assistant text appended by the evaluator when no code was generated. -/
def noCodeText : String := "No code was generated to evaluate."

/-- Assistant text wrapping the evaluation outcome. -/
def evalResultText (result : String) : String := "Code Evaluation Result:\n" ++ result

/-- The success display string. -/
def execOkText (v : String) : String := "Execution successful. Result: " ++ v

/-- The failure display string. -/
def execFailText (m : String) : String := "Code execution failed. Error: " ++ m

/-- The wrapper backstop text of the Effect variant for the generation stage. -/
def internalGenErrorText (m : String) : String :=
  "An internal error occurred during code generation: " ++ m

/-- The `LLMService` error wrapper text of the Effect variant. -/
def llmInvocationFailedText (m : String) : String := "LLM invocation failed: " ++ m

/-- Everything of the instructional prompt before the interpolated request. -/
def promptIntro : String :=
  "You are a helpful AI assistant that writes simple TypeScript code.\n" ++
  "The user wants to perform a calculation or a simple task.\n" ++
  "Generate TypeScript code that fulfills the user\x27s request.\n" ++
  "The code should be a self-contained function named \x27execute\x27 that takes no arguments and returns a string or number.\n" ++
  "Do NOT include imports, just the function.\n\n" ++
  "Example:\n" ++
  "User Request: \"Add 5 and 3\"\n" ++
  "```typescript\n" ++
  "function execute(): number \x7b\n  return 5 + 3;\n\x7d\n" ++
  "```\n\n" ++
  "User Request: \""

/-- Everything of the instructional prompt after the interpolated request. -/
def promptTail : String := "\"\n```typescript\n"

/-- The full prompt sent to the model for a given user request. -/
def mkPrompt (userRequest : String) : String := promptIntro ++ userRequest ++ promptTail

/-! ## Oracles and sandbox configuration -/

/-- An uncaught JavaScript exception of the plain variant. -/
inductive JsError where
  | typeError
  | llmFailure (msg : String)
deriving DecidableEq

/-- The vm2 `VM` constructor options used by both variants. -/
structure VMConfig where
  timeout : Nat
  sandboxGlobals : List String
deriving DecidableEq

/-- `new VM({ timeout: 1000, sandbox: {} })`. -/
def vmConfig : VMConfig := { timeout := 1000, sandboxGlobals := [] }

/-- The wrapping applied before running:
`` `${code}\n\nmodule.exports = execute();` ``. -/
def wrapCode (code : String) : String := code ++ "\n\nmodule.exports = execute();"

/-- Equality of `Except` values is decidable when both components are. -/
instance (ε α : Type) [DecidableEq ε] [DecidableEq α] : DecidableEq (Except ε α) :=
  fun a b =>
  match a, b with
  | Except.error e, Except.error f =>
    if h : e = f then Decidable.isTrue (by rw [h])
    else Decidable.isFalse (fun hh => h (Except.error.inj hh))
  | Except.error _, Except.ok _ => Decidable.isFalse (fun hh => Except.noConfusion hh)
  | Except.ok _, Except.error _ => Decidable.isFalse (fun hh => Except.noConfusion hh)
  | Except.ok x, Except.ok y =>
    if h : x = y then Decidable.isTrue (by rw [h])
    else Decidable.isFalse (fun hh => h (Except.ok.inj hh))

/-- The language-model collaborator: prompt text to reply text (or a
rejection message). -/
abbrev LlmOracle := String → Except String String

/-- The sandbox collaborator: configuration and source to the JSON-serialized
result value (or the `.message` of a thrown error). -/
abbrev SandboxOracle := VMConfig → String → Except String String

/-! ## CodeGenerator -/

/-- The common tail of both generator nodes: extract a block from the reply;
the JS falsy check `if (!generatedCode)` also treats an extracted empty string
as a failure.  On success the node appends the summary assistant message and
sets `generatedCode`; on failure it appends the failure assistant message
only. -/
def generateFromReply (messages : List Message) (reply : String) : NodeUpdate :=
  match extractTypescript reply with
  | some code =>
    if code = "" then { messages := messages ++ [Message.ai genFailText] }
    else
      { messages := messages ++ [Message.ai (genSuccessText code)],
        generatedCode := some code }
  | none => { messages := messages ++ [Message.ai genFailText] }

/-- `(state.messages[state.messages.length - 1] as HumanMessage).content` of
the plain variant: on an empty array the index is `-1`, the element is
`undefined`, and reading `.content` throws a `TypeError`; otherwise the last
content of the last message is read whatever its role (the cast is compile-time
only). -/
def lastMessageContentPlain (msgs : List Message) : Except JsError String :=
  match msgs.getLast? with
  | none => Except.error JsError.typeError
  | some m => Except.ok m.content

/-- Plain-variant `generateCodeNode`: no `try`/`catch`, so both the
`TypeError` on an empty transcript and a rejected model call propagate. -/
def generateCodeNodePlain (llm : LlmOracle) (s : AgentState) :
    Except JsError NodeUpdate :=
  match lastMessageContentPlain s.messages with
  | Except.error e => Except.error e
  | Except.ok req =>
    match llm (mkPrompt req) with
    | Except.error e => Except.error (JsError.llmFailure e)
    | Except.ok reply => Except.ok (generateFromReply s.messages reply)

/-- Effect-variant `lastHumanMessage`: `ReadonlyArray.last` (an `Option`,
failing when empty), mapped to the content when the last message is a
`HumanMessage` and to the defensive default otherwise, with
`orElseSucceed` supplying the same default on the empty case. -/
def lastHumanMessageEffect (msgs : List Message) : String :=
  match msgs.getLast? with
  | some (Message.human c) => c
  | some (Message.ai _) => "No user request provided"
  | none => "No user request provided"

/-- Effect-variant `generateCodeNode`: a rejection of the model call is turned
into a typed `Error` by `LLMServiceLive` (message
`"LLM invocation failed: ..."`) and surfaces on the error channel. -/
def generateCodeNodeEffect (llm : LlmOracle) (s : AgentState) :
    Except String NodeUpdate :=
  match llm (mkPrompt (lastHumanMessageEffect s.messages)) with
  | Except.error e => Except.error (llmInvocationFailedText e)
  | Except.ok reply => Except.ok (generateFromReply s.messages reply)

/-- Effect-variant generation stage as run by
`generateCodeNodeEffectWrapper`: the `catchAll` backstop converts any typed
error into one appended assistant message, so the stage is total. -/
def generateStageEffect (llm : LlmOracle) (s : AgentState) : AgentState :=
  match generateCodeNodeEffect llm s with
  | Except.ok u => applyUpdate s u
  | Except.error msg =>
    applyUpdate s { messages := s.messages ++ [Message.ai (internalGenErrorText msg)] }

/-! ## SandboxedEvaluator -/

/-- Plain-variant `evaluateCodeNode`: with no generated code, append the
no-code assistant message; otherwise run the wrapped code in a fresh sandbox
(`try`/`catch` around the whole attempt) and append the display string, also
recording it in `evaluationResult`. -/
def evaluateCodeNodePlain (sandbox : SandboxOracle) (s : AgentState) : NodeUpdate :=
  match s.generatedCode with
  | none => { messages := s.messages ++ [Message.ai noCodeText] }
  | some code =>
    let result :=
      match sandbox vmConfig (wrapCode code) with
      | Except.ok v => execOkText v
      | Except.error m => execFailText m
    { messages := s.messages ++ [Message.ai (evalResultText result)],
      evaluationResult := some result }

/-- Effect-variant `CodeExecutionServiceLive.executeCode`: `Effect.try`
around the sandbox run; the success channel carries the success display
string, the error channel a typed `Error` whose message already carries the
failure display string. -/
def executeCodeService (sandbox : SandboxOracle) (code : String) :
    Except String String :=
  match sandbox vmConfig (wrapCode code) with
  | Except.ok v => Except.ok (execOkText v)
  | Except.error m => Except.error (execFailText m)

/-- Effect-variant `evaluateCodeNode`: the typed error of the service is caught by
`catchAll`, which prefixes the failure display text around the message of the
caught error once more. -/
def evaluateCodeNodeEffect (sandbox : SandboxOracle) (s : AgentState) : NodeUpdate :=
  match s.generatedCode with
  | none => { messages := s.messages ++ [Message.ai noCodeText] }
  | some code =>
    let result :=
      match executeCodeService sandbox code with
      | Except.ok r => r
      | Except.error m => execFailText m
    { messages := s.messages ++ [Message.ai (evalResultText result)],
      evaluationResult := some result }

/-- Plain-variant evaluation stage. -/
def evalStagePlain (sandbox : SandboxOracle) (s : AgentState) : AgentState :=
  applyUpdate s (evaluateCodeNodePlain sandbox s)

/-- Effect-variant evaluation stage (the `catchAll` of its wrapper is
unreachable: the node has no uncaught typed error). -/
def evalStageEffect (sandbox : SandboxOracle) (s : AgentState) : AgentState :=
  applyUpdate s (evaluateCodeNodeEffect sandbox s)

/-- The whole Effect-variant pipeline
`START → generate_code → evaluate_code → END`. -/
def pipelineEffect (llm : LlmOracle) (sandbox : SandboxOracle) (s : AgentState) :
    AgentState :=
  evalStageEffect sandbox (generateStageEffect llm s)

/-- The whole plain-variant pipeline; an exception thrown by the generator
node aborts the run. -/
def pipelinePlain (llm : LlmOracle) (sandbox : SandboxOracle) (s : AgentState) :
    Except JsError AgentState :=
  match generateCodeNodePlain llm s with
  | Except.error e => Except.error e
  | Except.ok u => Except.ok (evalStagePlain sandbox (applyUpdate s u))

/-! ## Lemmas about the extraction scan -/

theorem listPre_iff (xs ys : List Char) : listPre xs ys = true ↔ ∃ t, ys = xs ++ t := by
  induction xs generalizing ys with
  | nil =>
    simp only [listPre, List.nil_append]
    exact ⟨fun _ => ⟨ys, rfl⟩, fun _ => trivial⟩
  | cons a as ih =>
    cases ys with
    | nil =>
      constructor
      · intro h; simp [listPre] at h
      · rintro ⟨t, ht⟩; simp at ht
    | cons b bs =>
      simp only [listPre, Bool.and_eq_true, beq_iff_eq]
      constructor
      · rintro ⟨rfl, h2⟩
        obtain ⟨t, rfl⟩ := (ih bs).mp h2
        exact ⟨t, rfl⟩
      · rintro ⟨t, ht⟩
        rw [List.cons_append] at ht
        injection ht with h1 h2
        subst h1
        exact ⟨rfl, (ih bs).mpr ⟨t, h2⟩⟩

theorem listPre_of_append (xs t ys : List Char) (h : ys = xs ++ t) :
    listPre xs ys = true :=
  (listPre_iff xs ys).mpr ⟨t, h⟩

/-- If a nonempty `needle` would match at the head of `c :: l ++ needle ++ rest`,
then it already matches at the head of `c :: l ++ needle.take (needle.length - 1)`:
a match window starting at the head never needs more than the first
`needle.length - 1` characters past `c :: l`. -/
theorem listPre_window (needle : List Char) (hn : needle ≠ []) (c : Char)
    (l rest : List Char)
    (h : listPre needle (c :: (l ++ (needle ++ rest))) = true) :
    listPre needle (c :: (l ++ needle.take (needle.length - 1))) = true := by
  obtain ⟨t, ht⟩ := (listPre_iff _ _).mp h
  have hlen : 1 ≤ needle.length := by
    cases needle with
    | nil => exact absurd rfl hn
    | cons _ _ => simp
  have hA : c :: (l ++ needle.take (needle.length - 1)) ++
      (needle.drop (needle.length - 1) ++ rest) = c :: (l ++ (needle ++ rest)) := by
    simp only [List.cons_append, List.append_assoc, List.cons.injEq, true_and]
    rw [← List.append_assoc (needle.take (needle.length - 1)),
      List.take_append_drop]
  have htake : (c :: (l ++ (needle ++ rest))).take needle.length =
      (c :: (l ++ needle.take (needle.length - 1))).take needle.length := by
    rw [← hA, List.take_append_of_le_length]
    simp only [List.length_cons, List.length_append, List.length_take]
    omega
  have hneedle : needle = (c :: (l ++ (needle ++ rest))).take needle.length := by
    rw [ht, List.take_left]
  apply listPre_of_append needle
    ((c :: (l ++ needle.take (needle.length - 1))).drop needle.length)
  conv_lhs => rw [← List.take_append_drop needle.length
    (c :: (l ++ needle.take (needle.length - 1)))]
  rw [← htake, ← hneedle]

theorem findAfter_append (needle pre rest : List Char) (hn : needle ≠ [])
    (h : hasSub needle (pre ++ needle.take (needle.length - 1)) = false) :
    findAfter needle (pre ++ (needle ++ rest)) = some rest := by
  induction pre with
  | nil =>
    obtain ⟨n0, ntail, rfl⟩ : ∃ n0 ntail, needle = n0 :: ntail := by
      cases needle with
      | nil => exact absurd rfl hn
      | cons n0 ntail => exact ⟨n0, ntail, rfl⟩
    have hmatch : listPre (n0 :: ntail) (n0 :: (ntail ++ rest)) = true :=
      listPre_of_append (n0 :: ntail) rest _ (List.cons_append n0 ntail rest).symm
    rw [List.nil_append, List.cons_append, findAfter, if_pos hmatch,
      ← List.cons_append, List.drop_left]
  | cons c pre' ih =>
    rw [List.cons_append] at h
    rw [hasSub, Bool.or_eq_false_iff] at h
    rw [List.cons_append, findAfter, if_neg ?_]
    · exact ih h.2
    · intro hmatch
      exact absurd (listPre_window needle hn c pre' rest hmatch)
        (by rw [h.1]; simp)

theorem takeUntil_append (needle code rest : List Char) (hn : needle ≠ [])
    (h : hasSub needle (code ++ needle.take (needle.length - 1)) = false) :
    takeUntil needle (code ++ (needle ++ rest)) = some code := by
  induction code with
  | nil =>
    obtain ⟨n0, ntail, rfl⟩ : ∃ n0 ntail, needle = n0 :: ntail := by
      cases needle with
      | nil => exact absurd rfl hn
      | cons n0 ntail => exact ⟨n0, ntail, rfl⟩
    have hmatch : listPre (n0 :: ntail) (n0 :: (ntail ++ rest)) = true :=
      listPre_of_append (n0 :: ntail) rest _ (List.cons_append n0 ntail rest).symm
    rw [List.nil_append, List.cons_append, takeUntil, if_pos hmatch]
  | cons c code' ih =>
    rw [List.cons_append] at h
    rw [hasSub, Bool.or_eq_false_iff] at h
    rw [List.cons_append, takeUntil, if_neg ?_]
    · rw [ih h.2, Option.map_some']
    · intro hmatch
      exact absurd (listPre_window needle hn c code' rest hmatch)
        (by rw [h.1]; simp)

theorem findAfter_sound (needle l r : List Char) (h : findAfter needle l = some r) :
    ∃ a, l = a ++ (needle ++ r) := by
  induction l with
  | nil => simp [findAfter] at h
  | cons c rest ih =>
    rw [findAfter] at h
    split at h
    · next hc =>
      obtain ⟨t, ht⟩ := (listPre_iff _ _).mp hc
      injection h with h'
      refine ⟨[], ?_⟩
      rw [List.nil_append, ht, ← h', ht, List.drop_left]
    · obtain ⟨a, ha⟩ := ih h
      exact ⟨c :: a, by rw [ha, List.cons_append]⟩

theorem takeUntil_sound (needle l b : List Char) (h : takeUntil needle l = some b) :
    ∃ c, l = b ++ (needle ++ c) := by
  induction l generalizing b with
  | nil => simp [takeUntil] at h
  | cons c rest ih =>
    rw [takeUntil] at h
    split at h
    · next hc =>
      obtain ⟨t, ht⟩ := (listPre_iff _ _).mp hc
      injection h with h'
      exact ⟨t, by rw [← h', List.nil_append, ht]⟩
    · rw [Option.map_eq_some'] at h
      obtain ⟨b', hb', rfl⟩ := h
      obtain ⟨c₂, hc₂⟩ := ih b' hb'
      exact ⟨c₂, by rw [hc₂, List.cons_append]⟩

theorem extractTypescript_sound (s : String) (r : String)
    (h : extractTypescript s = some r) :
    ∃ a b c, s.toList = a ++ (openFence ++ (b ++ (closeFence ++ c))) ∧
      r = String.mk (trimChars b) := by
  unfold extractTypescript at h
  split at h
  · exact absurd h (by simp)
  · next rest hfind =>
    split at h
    · exact absurd h (by simp)
    · next captured htake =>
      injection h with h'
      obtain ⟨a, ha⟩ := findAfter_sound _ _ _ hfind
      obtain ⟨c, hc⟩ := takeUntil_sound _ _ _ htake
      exact ⟨a, captured, c, by rw [ha, hc], h'.symm⟩

theorem extractTypescript_first_block (pre code post : List Char)
    (hpre : hasSub openFence (pre ++ openFence.take (openFence.length - 1)) = false)
    (hcode : hasSub closeFence (code ++ closeFence.take (closeFence.length - 1)) = false) :
    extractTypescript (String.mk (pre ++ (openFence ++ (code ++ (closeFence ++ post))))) =
      some (String.mk (trimChars code)) := by
  unfold extractTypescript
  have htl : (String.mk (pre ++ (openFence ++ (code ++ (closeFence ++ post))))).toList =
      pre ++ (openFence ++ (code ++ (closeFence ++ post))) := rfl
  rw [htl, findAfter_append openFence pre _ (by decide) hpre]
  simp only [takeUntil_append closeFence code post (by decide) hcode]

/-! ## Shape lemmas for the stage transitions -/

theorem generateFromReply_cases (msgs : List Message) (reply : String) :
    (∃ code, extractTypescript reply = some code ∧ code ≠ "" ∧
       generateFromReply msgs reply =
         { messages := msgs ++ [Message.ai (genSuccessText code)],
           generatedCode := some code }) ∨
    generateFromReply msgs reply = { messages := msgs ++ [Message.ai genFailText] } := by
  unfold generateFromReply
  cases hx : extractTypescript reply with
  | none => exact Or.inr (by simp)
  | some code =>
    by_cases hc : code = ""
    · exact Or.inr (by simp [hc])
    · exact Or.inl ⟨code, rfl, hc, by simp [hc]⟩

theorem generateCodeNodeEffect_err (llm : LlmOracle) (s : AgentState) (e : String)
    (hr : llm (mkPrompt (lastHumanMessageEffect s.messages)) = Except.error e) :
    generateCodeNodeEffect llm s = Except.error (llmInvocationFailedText e) := by
  unfold generateCodeNodeEffect
  rw [hr]

theorem generateCodeNodeEffect_ok (llm : LlmOracle) (s : AgentState) (reply : String)
    (hr : llm (mkPrompt (lastHumanMessageEffect s.messages)) = Except.ok reply) :
    generateCodeNodeEffect llm s = Except.ok (generateFromReply s.messages reply) := by
  unfold generateCodeNodeEffect
  rw [hr]

theorem generateStageEffect_err (llm : LlmOracle) (s : AgentState) (e : String)
    (hr : llm (mkPrompt (lastHumanMessageEffect s.messages)) = Except.error e) :
    generateStageEffect llm s =
      { messages := s.messages ++
          (s.messages ++ [Message.ai (internalGenErrorText (llmInvocationFailedText e))]),
        generatedCode := s.generatedCode,
        evaluationResult := s.evaluationResult } := by
  unfold generateStageEffect
  rw [generateCodeNodeEffect_err llm s e hr]
  simp [applyUpdate, mergeMessages, mergeChannel]

theorem generateStageEffect_ok (llm : LlmOracle) (s : AgentState) (reply : String)
    (hr : llm (mkPrompt (lastHumanMessageEffect s.messages)) = Except.ok reply) :
    generateStageEffect llm s = applyUpdate s (generateFromReply s.messages reply) := by
  unfold generateStageEffect
  rw [generateCodeNodeEffect_ok llm s reply hr]

theorem generateStageEffect_noBlock (llm : LlmOracle) (s : AgentState) (reply : String)
    (hr : llm (mkPrompt (lastHumanMessageEffect s.messages)) = Except.ok reply)
    (hx : extractTypescript reply = none) :
    generateStageEffect llm s =
      { messages := s.messages ++ (s.messages ++ [Message.ai genFailText]),
        generatedCode := s.generatedCode,
        evaluationResult := s.evaluationResult } := by
  rw [generateStageEffect_ok llm s reply hr]
  simp [generateFromReply, hx, applyUpdate, mergeMessages, mergeChannel]

theorem generateStageEffect_success (llm : LlmOracle) (s : AgentState)
    (reply code : String)
    (hr : llm (mkPrompt (lastHumanMessageEffect s.messages)) = Except.ok reply)
    (hx : extractTypescript reply = some code) (hne : code ≠ "") :
    generateStageEffect llm s =
      { messages := s.messages ++ (s.messages ++ [Message.ai (genSuccessText code)]),
        generatedCode := some code,
        evaluationResult := s.evaluationResult } := by
  rw [generateStageEffect_ok llm s reply hr]
  simp [generateFromReply, hx, hne, applyUpdate, mergeMessages, mergeChannel]

theorem generateStageEffect_shape (llm : LlmOracle) (s : AgentState) :
    ∃ m, (generateStageEffect llm s).messages =
        s.messages ++ (s.messages ++ [Message.ai m]) ∧
      (generateStageEffect llm s).evaluationResult = s.evaluationResult := by
  cases hr : llm (mkPrompt (lastHumanMessageEffect s.messages)) with
  | error e => rw [generateStageEffect_err llm s e hr]; exact ⟨_, rfl, rfl⟩
  | ok reply =>
    rw [generateStageEffect_ok llm s reply hr]
    rcases generateFromReply_cases s.messages reply with ⟨code, _, _, hu⟩ | hu
    · rw [hu]
      exact ⟨genSuccessText code, by simp [applyUpdate, mergeMessages, mergeChannel],
        by simp [applyUpdate, mergeMessages, mergeChannel]⟩
    · rw [hu]
      exact ⟨genFailText, by simp [applyUpdate, mergeMessages, mergeChannel],
        by simp [applyUpdate, mergeMessages, mergeChannel]⟩

theorem evaluateCodeNodePlain_noneEq (sandbox : SandboxOracle) (s : AgentState)
    (h : s.generatedCode = none) :
    evaluateCodeNodePlain sandbox s =
      { messages := s.messages ++ [Message.ai noCodeText] } := by
  simp [evaluateCodeNodePlain, h]

theorem evaluateCodeNodeEffect_noneEq (sandbox : SandboxOracle) (s : AgentState)
    (h : s.generatedCode = none) :
    evaluateCodeNodeEffect sandbox s =
      { messages := s.messages ++ [Message.ai noCodeText] } := by
  simp [evaluateCodeNodeEffect, h]

theorem evaluateCodeNodePlain_okEq (sandbox : SandboxOracle) (s : AgentState)
    (code v : String) (h : s.generatedCode = some code)
    (hv : sandbox vmConfig (wrapCode code) = Except.ok v) :
    evaluateCodeNodePlain sandbox s =
      { messages := s.messages ++ [Message.ai (evalResultText (execOkText v))],
        evaluationResult := some (execOkText v) } := by
  simp [evaluateCodeNodePlain, h, hv]

theorem evaluateCodeNodePlain_errEq (sandbox : SandboxOracle) (s : AgentState)
    (code m : String) (h : s.generatedCode = some code)
    (hm : sandbox vmConfig (wrapCode code) = Except.error m) :
    evaluateCodeNodePlain sandbox s =
      { messages := s.messages ++ [Message.ai (evalResultText (execFailText m))],
        evaluationResult := some (execFailText m) } := by
  simp [evaluateCodeNodePlain, h, hm]

theorem evaluateCodeNodeEffect_okEq (sandbox : SandboxOracle) (s : AgentState)
    (code v : String) (h : s.generatedCode = some code)
    (hv : sandbox vmConfig (wrapCode code) = Except.ok v) :
    evaluateCodeNodeEffect sandbox s =
      { messages := s.messages ++ [Message.ai (evalResultText (execOkText v))],
        evaluationResult := some (execOkText v) } := by
  simp [evaluateCodeNodeEffect, executeCodeService, h, hv]

theorem evaluateCodeNodeEffect_errEq (sandbox : SandboxOracle) (s : AgentState)
    (code m : String) (h : s.generatedCode = some code)
    (hm : sandbox vmConfig (wrapCode code) = Except.error m) :
    evaluateCodeNodeEffect sandbox s =
      { messages := s.messages ++
          [Message.ai (evalResultText (execFailText (execFailText m)))],
        evaluationResult := some (execFailText (execFailText m)) } := by
  simp [evaluateCodeNodeEffect, executeCodeService, h, hm]

theorem evalStagePlain_none (sandbox : SandboxOracle) (s : AgentState)
    (h : s.generatedCode = none) :
    evalStagePlain sandbox s =
      { messages := s.messages ++ (s.messages ++ [Message.ai noCodeText]),
        generatedCode := none,
        evaluationResult := s.evaluationResult } := by
  unfold evalStagePlain
  rw [evaluateCodeNodePlain_noneEq sandbox s h]
  simp [applyUpdate, mergeMessages, mergeChannel, h]

theorem evalStageEffect_none (sandbox : SandboxOracle) (s : AgentState)
    (h : s.generatedCode = none) :
    evalStageEffect sandbox s =
      { messages := s.messages ++ (s.messages ++ [Message.ai noCodeText]),
        generatedCode := none,
        evaluationResult := s.evaluationResult } := by
  unfold evalStageEffect
  rw [evaluateCodeNodeEffect_noneEq sandbox s h]
  simp [applyUpdate, mergeMessages, mergeChannel, h]

theorem evalStagePlain_ok (sandbox : SandboxOracle) (s : AgentState) (code v : String)
    (h : s.generatedCode = some code)
    (hv : sandbox vmConfig (wrapCode code) = Except.ok v) :
    evalStagePlain sandbox s =
      { messages := s.messages ++
          (s.messages ++ [Message.ai (evalResultText (execOkText v))]),
        generatedCode := some code,
        evaluationResult := some (execOkText v) } := by
  unfold evalStagePlain
  rw [evaluateCodeNodePlain_okEq sandbox s code v h hv]
  simp [applyUpdate, mergeMessages, mergeChannel, h]

theorem evalStagePlain_err (sandbox : SandboxOracle) (s : AgentState) (code m : String)
    (h : s.generatedCode = some code)
    (hm : sandbox vmConfig (wrapCode code) = Except.error m) :
    evalStagePlain sandbox s =
      { messages := s.messages ++
          (s.messages ++ [Message.ai (evalResultText (execFailText m))]),
        generatedCode := some code,
        evaluationResult := some (execFailText m) } := by
  unfold evalStagePlain
  rw [evaluateCodeNodePlain_errEq sandbox s code m h hm]
  simp [applyUpdate, mergeMessages, mergeChannel, h]

theorem evalStageEffect_ok (sandbox : SandboxOracle) (s : AgentState) (code v : String)
    (h : s.generatedCode = some code)
    (hv : sandbox vmConfig (wrapCode code) = Except.ok v) :
    evalStageEffect sandbox s =
      { messages := s.messages ++
          (s.messages ++ [Message.ai (evalResultText (execOkText v))]),
        generatedCode := some code,
        evaluationResult := some (execOkText v) } := by
  unfold evalStageEffect
  rw [evaluateCodeNodeEffect_okEq sandbox s code v h hv]
  simp [applyUpdate, mergeMessages, mergeChannel, h]

theorem evalStageEffect_err (sandbox : SandboxOracle) (s : AgentState) (code m : String)
    (h : s.generatedCode = some code)
    (hm : sandbox vmConfig (wrapCode code) = Except.error m) :
    evalStageEffect sandbox s =
      { messages := s.messages ++
          (s.messages ++ [Message.ai (evalResultText (execFailText (execFailText m)))]),
        generatedCode := some code,
        evaluationResult := some (execFailText (execFailText m)) } := by
  unfold evalStageEffect
  rw [evaluateCodeNodeEffect_errEq sandbox s code m h hm]
  simp [applyUpdate, mergeMessages, mergeChannel, h]

theorem evalStagePlain_shape (sandbox : SandboxOracle) (s : AgentState) :
    ∃ m, (evalStagePlain sandbox s).messages =
        s.messages ++ (s.messages ++ [Message.ai m]) ∧
      (evalStagePlain sandbox s).generatedCode = s.generatedCode := by
  cases h : s.generatedCode with
  | none => rw [evalStagePlain_none sandbox s h]; exact ⟨noCodeText, rfl, rfl⟩
  | some code =>
    cases hv : sandbox vmConfig (wrapCode code) with
    | ok v => rw [evalStagePlain_ok sandbox s code v h hv]; exact ⟨_, rfl, rfl⟩
    | error m => rw [evalStagePlain_err sandbox s code m h hv]; exact ⟨_, rfl, rfl⟩

theorem evalStageEffect_shape (sandbox : SandboxOracle) (s : AgentState) :
    ∃ m, (evalStageEffect sandbox s).messages =
        s.messages ++ (s.messages ++ [Message.ai m]) ∧
      (evalStageEffect sandbox s).generatedCode = s.generatedCode := by
  cases h : s.generatedCode with
  | none => rw [evalStageEffect_none sandbox s h]; exact ⟨noCodeText, rfl, rfl⟩
  | some code =>
    cases hv : sandbox vmConfig (wrapCode code) with
    | ok v => rw [evalStageEffect_ok sandbox s code v h hv]; exact ⟨_, rfl, rfl⟩
    | error m => rw [evalStageEffect_err sandbox s code m h hv]; exact ⟨_, rfl, rfl⟩

theorem generateCodeNodePlain_llmErr (llm : LlmOracle) (s : AgentState)
    (req e : String)
    (hl : lastMessageContentPlain s.messages = Except.ok req)
    (hr : llm (mkPrompt req) = Except.error e) :
    generateCodeNodePlain llm s = Except.error (JsError.llmFailure e) := by
  unfold generateCodeNodePlain
  simp only [hl, hr]

theorem generateCodeNodePlain_ok (llm : LlmOracle) (s : AgentState)
    (req reply : String)
    (hl : lastMessageContentPlain s.messages = Except.ok req)
    (hr : llm (mkPrompt req) = Except.ok reply) :
    generateCodeNodePlain llm s = Except.ok (generateFromReply s.messages reply) := by
  unfold generateCodeNodePlain
  simp only [hl, hr]

theorem generateCodeNodePlain_ok_inv (llm : LlmOracle) (s : AgentState)
    (u : NodeUpdate) (h : generateCodeNodePlain llm s = Except.ok u) :
    ∃ req reply, lastMessageContentPlain s.messages = Except.ok req ∧
      llm (mkPrompt req) = Except.ok reply ∧ u = generateFromReply s.messages reply := by
  unfold generateCodeNodePlain at h
  cases hl : lastMessageContentPlain s.messages with
  | error e => rw [hl] at h; simp at h
  | ok req =>
    rw [hl] at h
    simp only [] at h
    cases hr : llm (mkPrompt req) with
    | error e => rw [hr] at h; simp at h
    | ok reply =>
      rw [hr] at h
      simp only [Except.ok.injEq] at h
      exact ⟨req, reply, rfl, hr, h.symm⟩

theorem pipelinePlain_err (llm : LlmOracle) (sb : SandboxOracle) (s : AgentState)
    (e : JsError) (h : generateCodeNodePlain llm s = Except.error e) :
    pipelinePlain llm sb s = Except.error e := by
  unfold pipelinePlain
  simp only [h]

theorem pipelinePlain_ok (llm : LlmOracle) (sb : SandboxOracle) (s : AgentState)
    (u : NodeUpdate) (h : generateCodeNodePlain llm s = Except.ok u) :
    pipelinePlain llm sb s = Except.ok (evalStagePlain sb (applyUpdate s u)) := by
  unfold pipelinePlain
  simp only [h]

theorem pipelineEffect_length (llm : LlmOracle) (sb : SandboxOracle) (s : AgentState) :
    (pipelineEffect llm sb s).messages.length = 4 * s.messages.length + 3 := by
  obtain ⟨m1, h1, _⟩ := generateStageEffect_shape llm s
  obtain ⟨m2, h2, _⟩ := evalStageEffect_shape sb (generateStageEffect llm s)
  unfold pipelineEffect
  rw [h2, h1]
  simp only [List.length_append, List.length_cons, List.length_nil]
  omega

/-! ## Claims -/

/-- Claim C3: code extraction from the model reply is a function from text to
optional code returning the contents of the first fenced block tagged
`"```typescript"`, with surrounding whitespace trimmed, and nothing when no
such block exists.  Part 1: on a text decomposed around an explicit fenced
block, where no opening fence can match earlier than the explicit one and no
closing fence earlier than the explicit one, extraction returns exactly the
trimmed block contents.  Part 2 (soundness): any successful extraction comes
from such a decomposition, and the result is the trimmed capture.  Part 3:
when no fenced block exists (no decomposition at all), extraction returns
nothing. -/
theorem c3_extract_first_fenced_block :
    (∀ pre code post : List Char,
      hasSub openFence (pre ++ openFence.take (openFence.length - 1)) = false →
      hasSub closeFence (code ++ closeFence.take (closeFence.length - 1)) = false →
      extractTypescript
          (String.mk (pre ++ (openFence ++ (code ++ (closeFence ++ post))))) =
        some (String.mk (trimChars code)))
    ∧ (∀ s r : String, extractTypescript s = some r →
        ∃ a b c, s.toList = a ++ (openFence ++ (b ++ (closeFence ++ c))) ∧
          r = String.mk (trimChars b))
    ∧ (∀ s : String,
        (∀ a b c : List Char,
          s.toList ≠ a ++ (openFence ++ (b ++ (closeFence ++ c)))) →
        extractTypescript s = none) := by
  refine ⟨extractTypescript_first_block, extractTypescript_sound, ?_⟩
  intro s h
  cases hx : extractTypescript s with
  | none => rfl
  | some r =>
    obtain ⟨a, b, c, hdecomp, _⟩ := extractTypescript_sound s r hx
    exact absurd hdecomp (h a b c)

/-- Closed instance of the C3 theorem: both side conditions
hold for `pre = "x"`, `code = " a "`, `post = "y"`, and extraction returns the
trimmed capture. -/
theorem c3_extract_first_fenced_block_witness :
    hasSub openFence ("x".toList ++ openFence.take (openFence.length - 1)) = false ∧
    hasSub closeFence (" a ".toList ++ closeFence.take (closeFence.length - 1)) = false ∧
    extractTypescript
        (String.mk ("x".toList ++ (openFence ++ (" a ".toList ++ (closeFence ++ "y".toList))))) =
      some (String.mk (trimChars " a ".toList)) :=
  ⟨by decide, by decide,
    c3_extract_first_fenced_block.1 "x".toList " a ".toList "y".toList
      (by decide) (by decide)⟩

/-- Claim C5 counterexample: the claim says the evaluator appends exactly one
assistant message when `generatedCode` is absent — but through the transcript
channel concat reducer the stage transition merges the whole returned array
into the prior transcript, so a one-message input state ends with three
messages (the prior transcript duplicated plus the no-code notice), not
two. -/
theorem c5_counterexample :
    (evalStagePlain (fun _ _ => Except.ok "")
        (AgentState.mk [Message.human "hi"] none none)).messages =
      [Message.human "hi", Message.human "hi", Message.ai noCodeText]
    ∧ (evalStagePlain (fun _ _ => Except.ok "")
        (AgentState.mk [Message.human "hi"] none none)).messages ≠
      [Message.human "hi", Message.ai noCodeText] := by
  exact ⟨by decide, by decide⟩

/-- Claim C5 (amended): when `generatedCode` is absent each evaluator node
returns an update containing exactly one new assistant message noting nothing
was generated and no `evaluationResult`; no sandbox is consulted (the outcome
is independent of the sandbox oracle) and the path is deterministic — running
the evaluator twice contributes the same single new message both times.
Through the transcript concat reducer each stage transition merges the whole
returned array, so the resulting transcript is
`s.messages ++ (s.messages ++ [notice])` (prior transcript duplicated), not
the prior transcript extended by exactly one entry. -/
theorem c5_missing_code_path (sb sb2 : SandboxOracle) (s : AgentState)
    (h : s.generatedCode = none) :
    evaluateCodeNodePlain sb s =
      { messages := s.messages ++ [Message.ai noCodeText] }
    ∧ evaluateCodeNodeEffect sb s =
      { messages := s.messages ++ [Message.ai noCodeText] }
    ∧ evalStagePlain sb s =
      { messages := s.messages ++ (s.messages ++ [Message.ai noCodeText]),
        generatedCode := none, evaluationResult := s.evaluationResult }
    ∧ evalStageEffect sb s =
      { messages := s.messages ++ (s.messages ++ [Message.ai noCodeText]),
        generatedCode := none, evaluationResult := s.evaluationResult }
    ∧ evalStagePlain sb s = evalStagePlain sb2 s
    ∧ evalStageEffect sb s = evalStageEffect sb2 s
    ∧ (evalStagePlain sb (evalStagePlain sb s)).messages =
        (evalStagePlain sb s).messages ++
          ((evalStagePlain sb s).messages ++ [Message.ai noCodeText])
    ∧ (evalStageEffect sb (evalStageEffect sb s)).messages =
        (evalStageEffect sb s).messages ++
          ((evalStageEffect sb s).messages ++ [Message.ai noCodeText]) := by
  have h1 := evalStagePlain_none sb s h
  have h2 := evalStageEffect_none sb s h
  have h1' := evalStagePlain_none sb2 s h
  have h2' := evalStageEffect_none sb2 s h
  refine ⟨evaluateCodeNodePlain_noneEq sb s h, evaluateCodeNodeEffect_noneEq sb s h,
    h1, h2, h1.trans h1'.symm, h2.trans h2'.symm, ?_, ?_⟩
  · rw [evalStagePlain_none sb (evalStagePlain sb s) (by rw [h1])]
  · rw [evalStageEffect_none sb (evalStageEffect sb s) (by rw [h2])]

/-- Closed instance of the C5 theorem at a fresh single-message state and two
different sandbox oracles: the stage output duplicates the prior transcript
and carries the single no-code notice. -/
theorem c5_missing_code_path_witness :
    (AgentState.mk [Message.human "hi"] none none).generatedCode = none ∧
    evalStagePlain (fun _ _ => Except.ok "1") (AgentState.mk [Message.human "hi"] none none) =
      { messages := [Message.human "hi", Message.human "hi", Message.ai noCodeText],
        generatedCode := none, evaluationResult := none } :=
  ⟨rfl,
    (c5_missing_code_path (fun _ _ => Except.ok "1") (fun _ _ => Except.error "e")
      (AgentState.mk [Message.human "hi"] none none) rfl).2.2.1⟩

/-- Claim C6 counterexample: the claim says that on success the state gains
one assistant message — but the transcript concat reducer merges the whole
returned array, so a state with one prior message gains two (a duplicate of
the prior transcript plus the evaluation message). -/
theorem c6_counterexample :
    (evalStagePlain (fun _ _ => Except.ok "8")
        (AgentState.mk [Message.human "hi"] (some "c") none)).messages =
      [Message.human "hi", Message.human "hi",
        Message.ai (evalResultText (execOkText "8"))]
    ∧ (evalStagePlain (fun _ _ => Except.ok "8")
        (AgentState.mk [Message.human "hi"] (some "c") none)).messages ≠
      [Message.human "hi", Message.ai (evalResultText (execOkText "8"))] := by
  exact ⟨by decide, by decide⟩

/-- Claim C6 (amended): with `generatedCode` present, each evaluator variant
runs the wrapped code (sole output: the value of `execute()`) through the
sandbox configured with a 1000 ms timeout and an empty global surface; on
success the update returned by the node contains exactly one new assistant
message containing the string `"Execution successful. Result: <value>"` and
sets `evaluationResult` to that same string.  Through the transcript concat
reducer the stage transition merges the whole returned array, so the state
gains a duplicate of the prior transcript plus that one message. -/
theorem c6_success_path (sb : SandboxOracle) (s : AgentState) (code v : String)
    (hc : s.generatedCode = some code)
    (hv : sb vmConfig (wrapCode code) = Except.ok v) :
    evaluateCodeNodePlain sb s =
      { messages := s.messages ++ [Message.ai (evalResultText (execOkText v))],
        evaluationResult := some (execOkText v) }
    ∧ evaluateCodeNodeEffect sb s =
      { messages := s.messages ++ [Message.ai (evalResultText (execOkText v))],
        evaluationResult := some (execOkText v) }
    ∧ evalStagePlain sb s =
      { messages := s.messages ++
          (s.messages ++ [Message.ai (evalResultText (execOkText v))]),
        generatedCode := some code, evaluationResult := some (execOkText v) }
    ∧ evalStageEffect sb s =
      { messages := s.messages ++
          (s.messages ++ [Message.ai (evalResultText (execOkText v))]),
        generatedCode := some code, evaluationResult := some (execOkText v) }
    ∧ vmConfig.timeout = 1000
    ∧ vmConfig.sandboxGlobals = []
    ∧ wrapCode code = code ++ "\n\nmodule.exports = execute();"
    ∧ execOkText v = "Execution successful. Result: " ++ v :=
  ⟨evaluateCodeNodePlain_okEq sb s code v hc hv,
    evaluateCodeNodeEffect_okEq sb s code v hc hv,
    evalStagePlain_ok sb s code v hc hv, evalStageEffect_ok sb s code v hc hv,
    rfl, rfl, rfl, rfl⟩

/-- Closed instance of the C6 theorem: sandbox returns the serialized value
`"8"` for the generated code `"c"`. -/
theorem c6_success_path_witness :
    (AgentState.mk [] (some "c") none).generatedCode = some "c" ∧
    (fun (_ : VMConfig) (_ : String) => (Except.ok "8" : Except String String))
        vmConfig (wrapCode "c") = Except.ok "8" ∧
    evalStagePlain (fun _ _ => Except.ok "8") (AgentState.mk [] (some "c") none) =
      { messages := [Message.ai (evalResultText (execOkText "8"))],
        generatedCode := some "c", evaluationResult := some (execOkText "8") } :=
  ⟨rfl, rfl,
    (c6_success_path (fun _ _ => Except.ok "8") (AgentState.mk [] (some "c") none)
      "c" "8" rfl rfl).2.2.1⟩

/-- Claim C7 counterexample: the claim says the evaluator appends one
assistant message exactly as on the success path — but the transcript concat
reducer also merges a duplicate of the prior transcript on the failure
transition, so a one-message input ends with three messages, not two. -/
theorem c7_counterexample :
    (evalStagePlain (fun _ _ => Except.error "boom")
        (AgentState.mk [Message.human "hi"] (some "c") none)).messages =
      [Message.human "hi", Message.human "hi",
        Message.ai (evalResultText (execFailText "boom"))]
    ∧ (evalStagePlain (fun _ _ => Except.error "boom")
        (AgentState.mk [Message.human "hi"] (some "c") none)).messages ≠
      [Message.human "hi", Message.ai (evalResultText (execFailText "boom"))] := by
  exact ⟨by decide, by decide⟩

/-- Claim C7 (amended): every sandbox failure (timeout, runtime exception,
serialization error — one oracle error outcome with message `m`) is caught
locally by each evaluator variant and never propagated: the stage still
returns a state, the update returned by the node contains exactly one new
assistant message built exactly as on the success path from the display
string `"Code execution failed. Error: " ++ <message>`, and
`evaluationResult` is still set to that failure string (the message caught by
the Effect variant is itself already display-prefixed by its execution
service, so its display string carries the prefix twice).  As on the success
path, the transcript concat reducer merges the whole returned array, so the
stage transition also duplicates the prior transcript. -/
theorem c7_failure_path (sb : SandboxOracle) (s : AgentState) (code m : String)
    (hc : s.generatedCode = some code)
    (hm : sb vmConfig (wrapCode code) = Except.error m) :
    evaluateCodeNodePlain sb s =
      { messages := s.messages ++ [Message.ai (evalResultText (execFailText m))],
        evaluationResult := some (execFailText m) }
    ∧ evaluateCodeNodeEffect sb s =
      { messages := s.messages ++
          [Message.ai (evalResultText (execFailText (execFailText m)))],
        evaluationResult := some (execFailText (execFailText m)) }
    ∧ evalStagePlain sb s =
      { messages := s.messages ++
          (s.messages ++ [Message.ai (evalResultText (execFailText m))]),
        generatedCode := some code, evaluationResult := some (execFailText m) }
    ∧ evalStageEffect sb s =
      { messages := s.messages ++
          (s.messages ++ [Message.ai (evalResultText (execFailText (execFailText m)))]),
        generatedCode := some code,
        evaluationResult := some (execFailText (execFailText m)) }
    ∧ execFailText m = "Code execution failed. Error: " ++ m :=
  ⟨evaluateCodeNodePlain_errEq sb s code m hc hm,
    evaluateCodeNodeEffect_errEq sb s code m hc hm,
    evalStagePlain_err sb s code m hc hm, evalStageEffect_err sb s code m hc hm, rfl⟩

/-- Closed instance of the C7 theorem: the sandbox throws with message
`"Script execution timed out."`. -/
theorem c7_failure_path_witness :
    (AgentState.mk [] (some "c") none).generatedCode = some "c" ∧
    evalStagePlain (fun _ _ => Except.error "Script execution timed out.")
        (AgentState.mk [] (some "c") none) =
      { messages := [Message.ai (evalResultText (execFailText "Script execution timed out."))],
        generatedCode := some "c",
        evaluationResult := some (execFailText "Script execution timed out.") } :=
  ⟨rfl,
    (c7_failure_path (fun _ _ => Except.error "Script execution timed out.")
      (AgentState.mk [] (some "c") none) "c" "Script execution timed out." rfl rfl).2.2.1⟩

/-- Claim C8: every stage transition (either variant) only appends to the
transcript: the input `messages` list is a prefix of the output list, so no
existing message is removed, replaced or reordered; the transcript channel
reducer itself also preserves its first argument as a prefix.  (For the plain
generator, which can throw, the statement covers every run that returns an
update.) -/
theorem c8_messages_append_only :
    (∀ x y : List Message, x <+: mergeMessages x y)
    ∧ (∀ (llm : LlmOracle) (s : AgentState),
        s.messages <+: (generateStageEffect llm s).messages)
    ∧ (∀ (sb : SandboxOracle) (s : AgentState),
        s.messages <+: (evalStagePlain sb s).messages)
    ∧ (∀ (sb : SandboxOracle) (s : AgentState),
        s.messages <+: (evalStageEffect sb s).messages)
    ∧ (∀ (llm : LlmOracle) (s : AgentState) (u : NodeUpdate),
        generateCodeNodePlain llm s = Except.ok u →
        s.messages <+: (applyUpdate s u).messages) := by
  refine ⟨fun x y => List.prefix_append x y, ?_, ?_, ?_, ?_⟩
  · intro llm s
    obtain ⟨m, hm, _⟩ := generateStageEffect_shape llm s
    rw [hm]; exact List.prefix_append _ _
  · intro sb s
    obtain ⟨m, hm, _⟩ := evalStagePlain_shape sb s
    rw [hm]; exact List.prefix_append _ _
  · intro sb s
    obtain ⟨m, hm, _⟩ := evalStageEffect_shape sb s
    rw [hm]; exact List.prefix_append _ _
  · intro llm s u h
    obtain ⟨req, reply, _, _, hu⟩ := generateCodeNodePlain_ok_inv llm s u h
    subst hu
    rcases generateFromReply_cases s.messages reply with ⟨code, _, _, hu⟩ | hu <;>
      rw [hu] <;> exact List.prefix_append _ _

/-- Closed instance of the C8 theorem: the plain generator part at
a model reply without a fenced block. -/
theorem c8_messages_append_only_witness :
    generateCodeNodePlain (fun _ => Except.ok "no block")
        (AgentState.mk [Message.human "hi"] none none) =
      Except.ok (NodeUpdate.mk [Message.human "hi", Message.ai genFailText] none none) ∧
    [Message.human "hi"] <+:
      (applyUpdate (AgentState.mk [Message.human "hi"] none none)
        (NodeUpdate.mk [Message.human "hi", Message.ai genFailText] none none)).messages :=
  ⟨by rfl,
    c8_messages_append_only.2.2.2.2 (fun _ => Except.ok "no block")
      (AgentState.mk [Message.human "hi"] none none)
      (NodeUpdate.mk [Message.human "hi", Message.ai genFailText] none none)
      (by rfl)⟩

/-- Claim C9: the evaluator (either variant) never changes `generatedCode`
(it is written only by the generator), and the generator never changes
`evaluationResult` (written only by the evaluator); when the generator does
extract code it overwrites `generatedCode` with exactly the extracted text,
whatever value was there before (no accumulation). -/
theorem c9_field_ownership :
    (∀ (sb : SandboxOracle) (s : AgentState),
        (evalStagePlain sb s).generatedCode = s.generatedCode)
    ∧ (∀ (sb : SandboxOracle) (s : AgentState),
        (evalStageEffect sb s).generatedCode = s.generatedCode)
    ∧ (∀ (llm : LlmOracle) (s : AgentState),
        (generateStageEffect llm s).evaluationResult = s.evaluationResult)
    ∧ (∀ (llm : LlmOracle) (s : AgentState) (u : NodeUpdate),
        generateCodeNodePlain llm s = Except.ok u →
        (applyUpdate s u).evaluationResult = s.evaluationResult)
    ∧ (∀ (llm : LlmOracle) (s : AgentState) (reply code : String),
        llm (mkPrompt (lastHumanMessageEffect s.messages)) = Except.ok reply →
        extractTypescript reply = some code → code ≠ "" →
        (generateStageEffect llm s).generatedCode = some code) := by
  refine ⟨?_, ?_, ?_, ?_, ?_⟩
  · intro sb s
    obtain ⟨m, _, hg⟩ := evalStagePlain_shape sb s
    exact hg
  · intro sb s
    obtain ⟨m, _, hg⟩ := evalStageEffect_shape sb s
    exact hg
  · intro llm s
    obtain ⟨m, _, he⟩ := generateStageEffect_shape llm s
    exact he
  · intro llm s u h
    obtain ⟨req, reply, _, _, hu⟩ := generateCodeNodePlain_ok_inv llm s u h
    subst hu
    rcases generateFromReply_cases s.messages reply with ⟨code, _, _, hu⟩ | hu <;>
      rw [hu] <;> simp [applyUpdate, mergeChannel]
  · intro llm s reply code hr hx hne
    rw [generateStageEffect_success llm s reply code hr hx hne]

/-- Closed instance of the C9 theorem: the overwrite part at a state
whose `generatedCode` is already set to `"old"`. -/
theorem c9_field_ownership_witness :
    (fun _ : String => (Except.ok "```typescript\nnew```" : Except String String))
        (mkPrompt (lastHumanMessageEffect
          (AgentState.mk [Message.human "hi"] (some "old") none).messages)) =
      Except.ok "```typescript\nnew```" ∧
    extractTypescript "```typescript\nnew```" = some "new" ∧
    (generateStageEffect (fun _ => Except.ok "```typescript\nnew```")
        (AgentState.mk [Message.human "hi"] (some "old") none)).generatedCode =
      some "new" :=
  ⟨rfl, by decide,
    c9_field_ownership.2.2.2.2 (fun _ => Except.ok "```typescript\nnew```")
      (AgentState.mk [Message.human "hi"] (some "old") none)
      "```typescript\nnew```" "new" rfl (by decide) (by decide)⟩

/-- Claim C10 counterexample: with the same sandbox outcome (error message
`"boom"`) and the same input state, the two evaluator variants do NOT produce
the same updated state — the failure string of the Effect variant carries
the display prefix twice, that of the plain variant once. -/
theorem c10_counterexample :
    evalStagePlain (fun _ _ => Except.error "boom") (AgentState.mk [] (some "c") none) ≠
      evalStageEffect (fun _ _ => Except.error "boom") (AgentState.mk [] (some "c") none) := by
  decide

/-- Claim C10 (amended): given the same sandbox outcome, the two evaluator
variants produce the same updated state on the missing-code path and on the
success path; on the failure path both append one message and set
`evaluationResult`, but the failure string of the plain variant is
`"Code execution failed. Error: " ++ m` while the Effect variant prefixes
the caught service error once more, yielding
`"Code execution failed. Error: Code execution failed. Error: " ++ m`. -/
theorem c10_variant_agreement (sb : SandboxOracle) (s : AgentState) :
    (s.generatedCode = none → evalStagePlain sb s = evalStageEffect sb s)
    ∧ (∀ code v : String, s.generatedCode = some code →
        sb vmConfig (wrapCode code) = Except.ok v →
        evalStagePlain sb s = evalStageEffect sb s)
    ∧ (∀ code m : String, s.generatedCode = some code →
        sb vmConfig (wrapCode code) = Except.error m →
        (evalStagePlain sb s).evaluationResult = some (execFailText m) ∧
        (evalStageEffect sb s).evaluationResult =
          some (execFailText (execFailText m))) := by
  refine ⟨?_, ?_, ?_⟩
  · intro h
    rw [evalStagePlain_none sb s h, evalStageEffect_none sb s h]
  · intro code v hc hv
    rw [evalStagePlain_ok sb s code v hc hv, evalStageEffect_ok sb s code v hc hv]
  · intro code m hc hm
    rw [evalStagePlain_err sb s code m hc hm, evalStageEffect_err sb s code m hc hm]
    exact ⟨rfl, rfl⟩

/-- Closed instance of the C10 theorem: success-path agreement at a
concrete state and sandbox. -/
theorem c10_variant_agreement_witness :
    (AgentState.mk [] (some "c") none).generatedCode = some "c" ∧
    evalStagePlain (fun _ _ => Except.ok "8") (AgentState.mk [] (some "c") none) =
      evalStageEffect (fun _ _ => Except.ok "8") (AgentState.mk [] (some "c") none) :=
  ⟨rfl,
    (c10_variant_agreement (fun _ _ => Except.ok "8")
      (AgentState.mk [] (some "c") none)).2.1 "c" "8" rfl rfl⟩

/-- Claim C1 counterexample: the claim says the pipeline never raises past
its outer boundary, on every input including an empty messages list — but the
generator of the plain variant reads `.content` of `undefined` on an empty
transcript and the resulting TypeError escapes, aborting the run with no
output state. -/
theorem c1_counterexample :
    pipelinePlain (fun _ => Except.ok "") (fun _ _ => Except.ok "")
      (AgentState.mk [] none none) = Except.error JsError.typeError := by
  rfl

/-- Claim C1 (amended): the Effect-variant pipeline is total and always
returns a state with strictly more messages.  Each node update contains
exactly one new assistant message, but the transcript concat reducer merges
the full returned array into the prior transcript, so each stage transition
duplicates the prior messages and an `n`-message input ends with exactly
`4 * n + 3` messages.  The plain variant does the same whenever the input
transcript is non-empty and the model call resolves, but an empty transcript
(or a model rejection, see C4) makes it raise instead. -/
theorem c1_pipeline_growth :
    (∀ (llm : LlmOracle) (sb : SandboxOracle) (s : AgentState),
      (pipelineEffect llm sb s).messages.length = 4 * s.messages.length + 3)
    ∧ (∀ (llm : LlmOracle) (sb : SandboxOracle) (s : AgentState),
      s.messages.length < (pipelineEffect llm sb s).messages.length)
    ∧ (∀ (llm : LlmOracle) (sb : SandboxOracle) (ms : List Message) (m : Message)
        (gc er : Option String) (reply : String),
        llm (mkPrompt m.content) = Except.ok reply →
        ∃ s', pipelinePlain llm sb (AgentState.mk (ms ++ [m]) gc er) = Except.ok s' ∧
          s'.messages.length = 4 * (ms ++ [m]).length + 3) := by
  refine ⟨pipelineEffect_length, ?_, ?_⟩
  · intro llm sb s
    rw [pipelineEffect_length llm sb s]
    omega
  · intro llm sb ms m gc er reply hr
    have hl : lastMessageContentPlain (AgentState.mk (ms ++ [m]) gc er).messages =
        Except.ok m.content := by
      unfold lastMessageContentPlain
      rw [List.getLast?_concat]
    have hok := generateCodeNodePlain_ok llm (AgentState.mk (ms ++ [m]) gc er)
      m.content reply hl hr
    refine ⟨_, pipelinePlain_ok llm sb _ _ hok, ?_⟩
    obtain ⟨m2, h2, _⟩ := evalStagePlain_shape sb
      (applyUpdate (AgentState.mk (ms ++ [m]) gc er)
        (generateFromReply (ms ++ [m]) reply))
    rw [h2]
    rcases generateFromReply_cases (ms ++ [m]) reply with ⟨code, _, _, hu⟩ | hu <;>
      rw [hu] <;>
      simp only [applyUpdate, mergeMessages, List.length_append, List.length_cons,
        List.length_nil] <;>
      omega

/-- Closed instance of the C1 theorem: the plain-variant part at a
one-message transcript and a model reply without a fenced block. -/
theorem c1_pipeline_growth_witness :
    (fun _ : String => (Except.ok "no block" : Except String String))
        (mkPrompt (Message.human "hi").content) = Except.ok "no block" ∧
    ∃ s', pipelinePlain (fun _ => Except.ok "no block") (fun _ _ => Except.ok "")
        (AgentState.mk ([] ++ [Message.human "hi"]) none none) = Except.ok s' ∧
      s'.messages.length = 4 * ([] ++ [Message.human "hi"]).length + 3 :=
  ⟨rfl,
    c1_pipeline_growth.2.2 (fun _ => Except.ok "no block") (fun _ _ => Except.ok "")
      [] (Message.human "hi") none none "no block" rfl⟩

set_option maxRecDepth 10000 in
/-- Claim C2 counterexample: on a state whose last message is an assistant
message with content `"foo"`, the generator of the plain variant does not consult
the literal string "No user request provided": its last-message read yields
`"foo"` (the role cast is compile-time only), and the behaviour of the node
depends on the prompt built from `"foo"` — with a model that would reject the
default-request prompt, the run still succeeds. -/
theorem c2_counterexample :
    lastMessageContentPlain [Message.ai "foo"] = Except.ok "foo"
    ∧ (Except.ok "foo" : Except JsError String) ≠ Except.ok "No user request provided"
    ∧ generateCodeNodePlain
        (fun p => if p.length = (mkPrompt "No user request provided").length
          then Except.error "X" else Except.ok "no block")
        (AgentState.mk [Message.ai "foo"] none none) =
      Except.ok (NodeUpdate.mk [Message.ai "foo", Message.ai genFailText] none none) := by
  refine ⟨rfl, by decide, by decide⟩

/-- Claim C2 (amended): the generator of the Effect variant consults the literal
string "No user request provided" when the transcript is empty or its last
message is not a human message, and otherwise exactly the content of the last
(hence most recent human) message; only that consulted string enters the
prompt, so two models agreeing on that one prompt give identical stage
results.  The plain variant instead throws on an empty transcript and uses
the content of the last message whatever its role. -/
theorem c2_consulted_request :
    (lastHumanMessageEffect [] = "No user request provided")
    ∧ (∀ (msgs : List Message) (a : String),
        msgs.getLast? = some (Message.ai a) →
        lastHumanMessageEffect msgs = "No user request provided")
    ∧ (∀ (msgs : List Message) (c : String),
        msgs.getLast? = some (Message.human c) →
        lastHumanMessageEffect msgs = c)
    ∧ (∀ (llm llm2 : LlmOracle) (s : AgentState),
        llm (mkPrompt (lastHumanMessageEffect s.messages)) =
          llm2 (mkPrompt (lastHumanMessageEffect s.messages)) →
        generateStageEffect llm s = generateStageEffect llm2 s)
    ∧ (∀ (llm : LlmOracle) (s : AgentState), s.messages = [] →
        generateCodeNodePlain llm s = Except.error JsError.typeError)
    ∧ (∀ (msgs : List Message) (m : Message), msgs.getLast? = some m →
        lastMessageContentPlain msgs = Except.ok m.content) := by
  refine ⟨rfl, ?_, ?_, ?_, ?_, ?_⟩
  · intro msgs a h
    unfold lastHumanMessageEffect
    rw [h]
  · intro msgs c h
    unfold lastHumanMessageEffect
    rw [h]
  · intro llm llm2 s h
    unfold generateStageEffect generateCodeNodeEffect
    rw [h]
  · intro llm s h
    unfold generateCodeNodePlain lastMessageContentPlain
    rw [h]
    rfl
  · intro msgs m h
    unfold lastMessageContentPlain
    rw [h]

/-- Closed instance of the C2 theorem: the assistant-last and
human-last parts at singleton transcripts. -/
theorem c2_consulted_request_witness :
    ([Message.ai "x"].getLast? = some (Message.ai "x") ∧
      lastHumanMessageEffect [Message.ai "x"] = "No user request provided") ∧
    ([Message.human "add"].getLast? = some (Message.human "add") ∧
      lastHumanMessageEffect [Message.human "add"] = "add") :=
  ⟨⟨rfl, c2_consulted_request.2.1 [Message.ai "x"] "x" rfl⟩,
    ⟨rfl, c2_consulted_request.2.2.1 [Message.human "add"] "add" rfl⟩⟩

/-- Claim C4 counterexample: the claim says a failed model call still yields
a state with one new assistant message and the pipeline proceeds to the
evaluator — but in the plain variant the rejection is uncaught: the pipeline
aborts with no message appended and the evaluator never runs. -/
theorem c4_counterexample :
    pipelinePlain (fun _ => Except.error "boom") (fun _ _ => Except.ok "")
      (AgentState.mk [Message.human "hi"] none none) =
      Except.error (JsError.llmFailure "boom") := by
  rfl

/-- Claim C4 (amended): when no fenced block is found in the model reply,
the generator node of each variant returns an update containing exactly one
new assistant message stating generation failed and no `generatedCode` write
(so `generatedCode` keeps its previous channel value, unset on a fresh
state); the transcript concat reducer merges that full returned array into
the prior transcript (duplicating it), and the pipeline still proceeds to the
evaluator stage.  When the model call itself fails, only the Effect variant
recovers — its wrapper appends one internal-error assistant message and
evaluation still runs; the plain variant propagates the rejection and the
pipeline aborts with nothing appended. -/
theorem c4_generation_failure_recovery :
    (∀ (llm : LlmOracle) (sb : SandboxOracle) (s : AgentState) (reply : String),
      llm (mkPrompt (lastHumanMessageEffect s.messages)) = Except.ok reply →
      extractTypescript reply = none →
      (generateCodeNodeEffect llm s =
        Except.ok (NodeUpdate.mk (s.messages ++ [Message.ai genFailText]) none none)
      ∧ generateStageEffect llm s =
        { messages := s.messages ++ (s.messages ++ [Message.ai genFailText]),
          generatedCode := s.generatedCode,
          evaluationResult := s.evaluationResult }
      ∧ (s.generatedCode = none →
          (pipelineEffect llm sb s).messages =
            (generateStageEffect llm s).messages ++
              ((generateStageEffect llm s).messages ++ [Message.ai noCodeText]))))
    ∧ (∀ (llm : LlmOracle) (sb : SandboxOracle) (s : AgentState) (req reply : String),
        lastMessageContentPlain s.messages = Except.ok req →
        llm (mkPrompt req) = Except.ok reply →
        extractTypescript reply = none →
        (generateCodeNodePlain llm s =
          Except.ok (NodeUpdate.mk (s.messages ++ [Message.ai genFailText]) none none)
        ∧ (s.generatedCode = none →
            pipelinePlain llm sb s = Except.ok
              (AgentState.mk
                ((s.messages ++ (s.messages ++ [Message.ai genFailText])) ++
                  ((s.messages ++ (s.messages ++ [Message.ai genFailText])) ++
                    [Message.ai noCodeText]))
                none s.evaluationResult))))
    ∧ (∀ (llm : LlmOracle) (sb : SandboxOracle) (s : AgentState) (e : String),
        llm (mkPrompt (lastHumanMessageEffect s.messages)) = Except.error e →
        (generateStageEffect llm s =
          { messages := s.messages ++
              (s.messages ++
                [Message.ai (internalGenErrorText (llmInvocationFailedText e))]),
            generatedCode := s.generatedCode,
            evaluationResult := s.evaluationResult }
        ∧ (s.generatedCode = none →
            (pipelineEffect llm sb s).messages =
              (generateStageEffect llm s).messages ++
                ((generateStageEffect llm s).messages ++ [Message.ai noCodeText]))))
    ∧ (∀ (llm : LlmOracle) (sb : SandboxOracle) (s : AgentState) (req e : String),
        lastMessageContentPlain s.messages = Except.ok req →
        llm (mkPrompt req) = Except.error e →
        pipelinePlain llm sb s = Except.error (JsError.llmFailure e)) := by
  refine ⟨?_, ?_, ?_, ?_⟩
  · intro llm sb s reply hr hx
    have hnode : generateCodeNodeEffect llm s =
        Except.ok (NodeUpdate.mk (s.messages ++ [Message.ai genFailText]) none none) := by
      rw [generateCodeNodeEffect_ok llm s reply hr]
      unfold generateFromReply
      rw [hx]
    have hg := generateStageEffect_noBlock llm s reply hr hx
    refine ⟨hnode, hg, fun hnone => ?_⟩
    unfold pipelineEffect
    rw [evalStageEffect_none sb (generateStageEffect llm s) (by rw [hg]; exact hnone)]
  · intro llm sb s req reply hl hr hx
    have hnode : generateCodeNodePlain llm s =
        Except.ok (NodeUpdate.mk (s.messages ++ [Message.ai genFailText]) none none) := by
      rw [generateCodeNodePlain_ok llm s req reply hl hr]
      unfold generateFromReply
      rw [hx]
    refine ⟨hnode, fun hnone => ?_⟩
    have hgc : (applyUpdate s
        (NodeUpdate.mk (s.messages ++ [Message.ai genFailText]) none none)).generatedCode =
        none := by
      simp [applyUpdate, mergeChannel, hnone]
    rw [pipelinePlain_ok llm sb s _ hnode, evalStagePlain_none sb _ hgc]
    rfl
  · intro llm sb s e hr
    have hg := generateStageEffect_err llm s e hr
    refine ⟨hg, fun hnone => ?_⟩
    unfold pipelineEffect
    rw [evalStageEffect_none sb (generateStageEffect llm s) (by rw [hg]; exact hnone)]
  · intro llm sb s req e hl hr
    exact pipelinePlain_err llm sb s _ (generateCodeNodePlain_llmErr llm s req e hl hr)

/-- Closed instance of the C4 theorem: the Effect-variant no-fenced-block
part at a fresh one-message state; the final transcript interleaves the
duplicated copies with the two notices. -/
theorem c4_generation_failure_recovery_witness :
    (fun _ : String => (Except.ok "no block" : Except String String))
        (mkPrompt (lastHumanMessageEffect
          (AgentState.mk [Message.human "hi"] none none).messages)) =
      Except.ok "no block" ∧
    extractTypescript "no block" = none ∧
    (pipelineEffect (fun _ => Except.ok "no block") (fun _ _ => Except.ok "")
        (AgentState.mk [Message.human "hi"] none none)).messages =
      [Message.human "hi", Message.human "hi", Message.ai genFailText,
        Message.human "hi", Message.human "hi", Message.ai genFailText,
        Message.ai noCodeText] :=
  ⟨rfl, by rfl,
    by exact ((c4_generation_failure_recovery.1 (fun _ => Except.ok "no block")
      (fun _ _ => Except.ok "") (AgentState.mk [Message.human "hi"] none none)
      "no block" rfl (by rfl)).2.2 rfl)⟩

end EffectLab
